import Mathlib

/-!
# Appointment booking backend (`index.js`): shallow embedding and verified properties

The Express/SQLite program is embedded as pure functions over an explicit database value.

Modelling conventions
* A table is the list of its rows in insertion order; `AUTOINCREMENT` keys come from a
  per-table sequence number that is never reused.
* SQLite compares `TEXT` values with the `BINARY` collation (bytewise on UTF-8), which is the
  lexicographic order of the code points: the order of `String.data : List Char`.
* The request body is well-typed JSON: ids are naturals, `date` and `start_time` are strings,
  `duration` and `amount` are integers.
* A `Date` is its time value, the milliseconds since 1970-01-01T00:00Z, or `NaN`; its methods
  follow ECMAScript (`LocalTime`, `UTC`, `MakeTime`, `MakeDate`, `TimeClip`).  What the
  language leaves to the engine and its host is a parameter, `Engine`: the offset of the
  server's local time zone, and `Date.parse` on the texts that are not of the form
  `YYYY-MM-DDTHH:mm[:ss[.sss]][Z|+HH:mm|-HH:mm]` read here.
* Every database call may fail (the `err` argument of its callback); the failures of the five
  calls of the booking route are the five flags of `Faults`.  A failing statement changes
  nothing.
* `bookAppointment` and `run` execute the callbacks of one request to completion before the
  next request starts.  `advance` and `runPair` execute two requests one database call at a
  time, in any order of the calls.
-/

set_option autoImplicit false

namespace Appointments

/-! ## Tables -/

/-- Result of `JSON.parse(mentor.expertise)` as far as `.includes(tag)` can tell:
an array (only its string elements can equal a tag), a JSON string, or anything else
(a number, object, boolean, null, or text that is not JSON), on which the route throws. -/
inductive Expertise where
  | array (tags : List String)
  | text (s : String)
  | other
  deriving DecidableEq, Repr

/-- Row of `Mentors`. -/
structure Mentor where
  id : Nat
  name : String
  expertise : Expertise
  premium : Bool
  deriving DecidableEq, Repr

/-- Row of `Students`. -/
structure Student where
  id : Nat
  name : String
  area_of_interest : String
  deriving DecidableEq, Repr

/-- Row of `Appointments`. -/
structure Appointment where
  id : Nat
  mentor_id : Nat
  student_id : Nat
  date : String
  start_time : String
  end_time : String
  duration : Int
  deriving DecidableEq, Repr

/-- Row of `Payments`. -/
structure Payment where
  id : Nat
  student_id : Nat
  mentor_id : Nat
  duration : Int
  amount : Int
  appointment_id : Nat
  deriving DecidableEq, Repr

/-- The database `sessions.db`: four tables and the `AUTOINCREMENT` sequences of the two
tables the booking route inserts into. -/
structure Db where
  mentors : List Mentor
  students : List Student
  appointments : List Appointment
  payments : List Payment
  appointmentSeq : Nat
  paymentSeq : Nat
  deriving DecidableEq, Repr

/-! ## `checkAvailability` -/

/-- The `WHERE` clause of the query in `checkAvailability`, with its eight parameters bound as
in the source: `[mentor_id, date, end_time, start_time, start_time, end_time, start_time,
end_time]`. -/
def overlapWhere (a : Appointment) (mentor_id : Nat) (date start_time end_time : String) : Bool :=
  a.mentor_id == mentor_id && a.date == date &&
  ((decide (a.start_time.data < end_time.data) && decide (a.end_time.data > start_time.data)) ||
   (decide (a.start_time.data < start_time.data) && decide (a.end_time.data > end_time.data)) ||
   (decide (a.start_time.data ≥ start_time.data) && decide (a.end_time.data ≤ end_time.data)))

/-- The call `db.get(SELECT * FROM Appointments WHERE ...)`: `none` is an error, `some row` the
first matching row if any. -/
def selectOverlap (db : Db) (fails : Bool) (mentor_id : Nat) (date start_time end_time : String) :
    Option (Option Appointment) :=
  if fails then none
  else some (db.appointments.find? (fun a => overlapWhere a mentor_id date start_time end_time))

/-- The function `checkAvailability`; the value is the argument passed to `callback`. -/
def checkAvailability (db : Db) (fails : Bool) (mentor_id : Nat)
    (date start_time end_time : String) : Bool :=
  match selectOverlap db fails mentor_id date start_time end_time with
  | none => false
  | some row => row.isNone

/-! ## The `Date` arithmetic of the booking route -/

/-- What the handler takes from the JavaScript engine and its host. -/
structure Engine where
  /-- The offset `LocalTZA(t, isUTC)` of the local time zone in milliseconds: at the UTC
  instant `t` when `isUTC`, and for the local time `t` otherwise (a local time skipped by a
  clock change takes the offset before the change). -/
  localTZA : Int → Bool → Int
  /-- The value of `Date.parse` on a text that is not of the form read by `parseDateTime`
  (engine-specific formats); `none` is `NaN`. -/
  otherFormats : String → Option Int

/-- Value of a decimal digit. -/
def digitVal (c : Char) : Option Nat :=
  if 48 ≤ c.toNat ∧ c.toNat ≤ 57 then some (c.toNat - 48) else none

/-- Value of a two-digit field. -/
def twoDigits (a b : Char) : Option Nat :=
  match digitVal a, digitVal b with
  | some x, some y => some (10 * x + y)
  | _, _ => none

/-- Value of a three-digit field. -/
def threeDigits (a b c : Char) : Option Nat :=
  match digitVal a, digitVal b, digitVal c with
  | some x, some y, some z => some (100 * x + 10 * y + z)
  | _, _, _ => none

/-- Day number of a date of the proleptic Gregorian calendar, counted from 1970-01-01
(`MakeDay`). -/
def daysFromCivil (y m d : Int) : Int :=
  let y1 := if m ≤ 2 then y - 1 else y
  let era := y1 / 400
  let yoe := y1 - era * 400
  let mp := if m > 2 then m - 3 else m + 9
  let doy := (153 * mp + 2) / 5 + d - 1
  let doe := yoe * 365 + yoe / 4 - yoe / 100 + doy
  era * 146097 + doe - 719468

/-- Number of days of a month. -/
def daysInMonth (y m : Nat) : Nat :=
  if m = 2 then (if y % 4 = 0 ∧ (y % 100 ≠ 0 ∨ y % 400 = 0) then 29 else 28)
  else if m = 4 ∨ m = 6 ∨ m = 9 ∨ m = 11 then 30 else 31

/-- Day number of the calendar date `YYYY-MM-DD` given by its eight digits. -/
def civilDate (y1 y2 y3 y4 m1 m2 d1 d2 : Char) : Option Int :=
  match twoDigits y1 y2, twoDigits y3 y4, twoDigits m1 m2, twoDigits d1 d2 with
  | some a, some b, some m, some d =>
    if 1 ≤ m ∧ m ≤ 12 ∧ 1 ≤ d ∧ d ≤ daysInMonth (100 * a + b) m then
      some (daysFromCivil ((100 * a + b : Nat) : Int) (m : Int) (d : Int))
    else none
  | _, _, _, _ => none

/-- Milliseconds since midnight of the fields of a time of day, `24:00:00.000` included. -/
def clockValue (h n s f : Option Nat) (rest : List Char) : Option (Int × List Char) :=
  match h, n, s, f with
  | some h, some n, some s, some f =>
    if (h < 24 ∧ n < 60 ∧ s < 60) ∨ (h = 24 ∧ n = 0 ∧ s = 0 ∧ f = 0) then
      some (((((h * 60 + n) * 60 + s) * 1000 + f : Nat) : Int), rest)
    else none
  | _, _, _, _ => none

/-- The time of day `HH:mm`, `HH:mm:ss` or `HH:mm:ss.sss` at the head of a text, with what
follows it. -/
def parseClock (cs : List Char) : Option (Int × List Char) :=
  match cs with
  | h1 :: h2 :: ':' :: n1 :: n2 :: ':' :: s1 :: s2 :: '.' :: f1 :: f2 :: f3 :: rest =>
    clockValue (twoDigits h1 h2) (twoDigits n1 n2) (twoDigits s1 s2) (threeDigits f1 f2 f3) rest
  | h1 :: h2 :: ':' :: n1 :: n2 :: ':' :: s1 :: s2 :: rest =>
    clockValue (twoDigits h1 h2) (twoDigits n1 n2) (twoDigits s1 s2) (some 0) rest
  | h1 :: h2 :: ':' :: n1 :: n2 :: rest =>
    clockValue (twoDigits h1 h2) (twoDigits n1 n2) (some 0) (some 0) rest
  | _ => none

/-- The end of a date-time text: nothing (`some none`, local time), `Z` or `+HH:mm` or
`-HH:mm` (the offset from UTC in milliseconds); `none` for anything else. -/
def parseZone (cs : List Char) : Option (Option Int) :=
  match cs with
  | [] => some none
  | ['Z'] => some (some 0)
  | [sign, h1, h2, ':', m1, m2] =>
    match twoDigits h1 h2, twoDigits m1 m2 with
    | some h, some m =>
      if h < 24 ∧ m < 60 then
        if sign = '+' then some (some ((((h * 60 + m) * 60000 : Nat) : Int)))
        else if sign = '-' then some (some (-(((h * 60 + m) * 60000 : Nat) : Int)))
        else none
      else none
    | _, _ => none
  | _ => none

/-- The function `Date.parse`.  A text `YYYY-MM-DDTHH:mm[:ss[.sss]]` with a real calendar date
is a local time without a zone suffix and a time at the given offset with one; every other
text is left to the engine. -/
def parseDateTime (eng : Engine) (text : String) : Option Int :=
  match text.data with
  | y1 :: y2 :: y3 :: y4 :: '-' :: m1 :: m2 :: '-' :: d1 :: d2 :: 'T' :: rest =>
    match civilDate y1 y2 y3 y4 m1 m2 d1 d2, parseClock rest with
    | some day, some (ms, rest2) =>
      match parseZone rest2 with
      | some none => some (day * 86400000 + ms - eng.localTZA (day * 86400000 + ms) false)
      | some (some offset) => some (day * 86400000 + ms - offset)
      | none => eng.otherFormats text
    | _, _ => eng.otherFormats text
  | _ => eng.otherFormats text

/-- A JavaScript `Date`: `none` is an Invalid Date (`NaN`), `some t` the instant `t`
milliseconds after 1970-01-01T00:00Z. -/
abbrev JsDate := Option Int

/-- The operation `TimeClip`: a time value beyond 8.64e15 ms is `NaN`. -/
def timeClip (t : Option Int) : JsDate :=
  match t with
  | some v => if -8640000000000000 ≤ v ∧ v ≤ 8640000000000000 then some v else none
  | none => none

/-- The constructor call `new Date(text)` on a string. -/
def newDate (eng : Engine) (text : String) : JsDate :=
  timeClip (parseDateTime eng text)

/-- The operation `LocalTime(t)`. -/
def localTime (eng : Engine) (t : Int) : Int :=
  t + eng.localTZA t true

/-- The method `getMinutes()`: the minute of the hour in local time, `none` for `NaN`. -/
def getMinutes (eng : Engine) (d : JsDate) : Option Int :=
  d.map (fun t => localTime eng t / 60000 % 60)

/-- The method `setMinutes(min)`: the local time with its minute field replaced
(`MakeDate(Day(t), MakeTime(HourFromTime(t), min, SecFromTime(t), msFromTime(t)))`), taken back
to UTC and clipped. -/
def setMinutes (eng : Engine) (d : JsDate) (min : Option Int) : JsDate :=
  match d, min with
  | some t, some m =>
    let lt := localTime eng t
    let date := lt / 86400000 * 86400000 +
      (lt / 3600000 % 24 * 3600000 + m * 60000 + lt / 1000 % 60 * 1000 + lt % 1000)
    timeClip (some (date - eng.localTZA date false))
  | _, _ => none

/-- Two decimal digits of a number below 100. -/
def pad2 (n : Nat) : List Char :=
  [Char.ofNat (48 + n / 10), Char.ofNat (48 + n % 10)]

/-- The expression `toTimeString().substring(0, 5)`: the local wall-clock `HH:MM`, or the first
five characters of `"Invalid Date"`. -/
def toTimeString5 (eng : Engine) (d : JsDate) : String :=
  match d with
  | none => "Inval"
  | some t =>
    String.mk (pad2 (localTime eng t / 3600000 % 24).toNat ++
      ':' :: pad2 (localTime eng t / 60000 % 60).toNat)

/-! ## The route `POST /book-appointment` -/

/-- Response sent with `res.status(status).send(body)`. -/
structure Response where
  status : Nat
  body : String
  deriving DecidableEq, Repr

def studentNotFound : Response := ⟨400, "Student not found"⟩
def mentorNotFound : Response := ⟨400, "Mentor not found"⟩
def notEligible : Response :=
  ⟨400, "Mentor does not have expertise in the student's area of interest"⟩
def slotUnavailable : Response := ⟨400, "Time slot not available"⟩
def errorBooking : Response := ⟨500, "Error booking appointment"⟩
def errorPayment : Response := ⟨500, "Error processing payment"⟩
def booked : Response := ⟨200, "Appointment booked and payment processed successfully"⟩

/-- The body of the request. -/
structure Request where
  student_id : Nat
  mentor_id : Nat
  date : String
  start_time : String
  duration : Int
  amount : Int
  deriving DecidableEq, Repr

/-- Which of the five database calls of the route fail (`err` is set in the callback). -/
structure Faults where
  student : Bool
  mentor : Bool
  availability : Bool
  appointment : Bool
  payment : Bool
  deriving DecidableEq, Repr

/-- No database call fails. -/
def noFaults : Faults := ⟨false, false, false, false, false⟩

/-- The database calls of the route, for the record of what one request did. -/
inductive DbCall where
  | selectStudent
  | selectMentor
  | selectOverlap
  | insertAppointment
  | insertPayment
  deriving DecidableEq, Repr

/-- What one request leaves behind: the response (`none` when the handler threw before
sending one), the database, and the database calls made, in order. -/
structure Outcome where
  response : Option Response
  db : Db
  calls : List DbCall
  deriving DecidableEq, Repr

/-- The query `SELECT area_of_interest FROM Students WHERE id = ?` with the test
`err || !student`: `none` when the call failed or found no row. -/
def selectStudent (db : Db) (fails : Bool) (student_id : Nat) : Option Student :=
  if fails then none else db.students.find? (fun s => s.id == student_id)

/-- The query `SELECT expertise, premium FROM Mentors WHERE id = ?` with the test
`err || !mentor`. -/
def selectMentor (db : Db) (fails : Bool) (mentor_id : Nat) : Option Mentor :=
  if fails then none else db.mentors.find? (fun m => m.id == mentor_id)

/-- The expression `expertise.includes(student.area_of_interest)` on the parsed expertise:
`Array.prototype.includes` on an array, `String.prototype.includes` (substring) on a string,
and an exception (`none`) otherwise. -/
def Expertise.includes (e : Expertise) (interest : String) : Option Bool :=
  match e with
  | .array tags => some (tags.contains interest)
  | .text s => some (decide (interest.data <:+: s.data))
  | .other => none

/-- Key given by `AUTOINCREMENT`: one more than the largest key ever used in the table. -/
def nextKey (seq : Nat) (keys : List Nat) : Nat :=
  max seq (keys.foldr max 0) + 1

/-- The statement `INSERT INTO Appointments (...) VALUES (...)`: `none` on error, else the new
database and `this.lastID`. -/
def insertAppointment (db : Db) (fails : Bool) (student_id mentor_id : Nat)
    (date start_time end_time : String) (duration : Int) : Option (Db × Nat) :=
  if fails then none
  else
    let key := nextKey db.appointmentSeq (db.appointments.map (fun a => a.id))
    some ({ db with
            appointments := db.appointments ++
              [⟨key, mentor_id, student_id, date, start_time, end_time, duration⟩],
            appointmentSeq := key }, key)

/-- The statement `INSERT INTO Payments (...) VALUES (...)`. -/
def insertPayment (db : Db) (fails : Bool) (student_id mentor_id : Nat) (duration amount : Int)
    (appointment_id : Nat) : Option (Db × Nat) :=
  if fails then none
  else
    let key := nextKey db.paymentSeq (db.payments.map (fun p => p.id))
    some ({ db with
            payments := db.payments ++
              [⟨key, student_id, mentor_id, duration, amount, appointment_id⟩],
            paymentSeq := key }, key)

/-- The local `startTime` of the handler: `new Date(date + "T" + start_time)`. -/
def startTime (eng : Engine) (req : Request) : JsDate :=
  newDate eng (req.date ++ "T" ++ req.start_time)

/-- The local `endTime` of the handler: a copy of `startTime` after
`setMinutes(startTime.getMinutes() + duration)`. -/
def endTime (eng : Engine) (req : Request) : JsDate :=
  setMinutes eng (startTime eng req)
    ((getMinutes eng (startTime eng req)).map (fun m => m + req.duration))

/-- The local `formattedStartTime` of the handler. -/
def formattedStartTime (eng : Engine) (req : Request) : String :=
  toTimeString5 eng (startTime eng req)

/-- The local `formattedEndTime` of the handler. -/
def formattedEndTime (eng : Engine) (req : Request) : String :=
  toTimeString5 eng (endTime eng req)

/-- The handler of `POST /book-appointment`. -/
def bookAppointment (eng : Engine) (db : Db) (f : Faults) (req : Request) : Outcome :=
  match selectStudent db f.student req.student_id with
  | none => ⟨some studentNotFound, db, [.selectStudent]⟩
  | some student =>
    match selectMentor db f.mentor req.mentor_id with
    | none => ⟨some mentorNotFound, db, [.selectStudent, .selectMentor]⟩
    | some mentor =>
      match mentor.expertise.includes student.area_of_interest with
      | none => ⟨none, db, [.selectStudent, .selectMentor]⟩
      | some false => ⟨some notEligible, db, [.selectStudent, .selectMentor]⟩
      | some true =>
        if checkAvailability db f.availability req.mentor_id req.date
            (formattedStartTime eng req) (formattedEndTime eng req) then
          match insertAppointment db f.appointment req.student_id req.mentor_id req.date
              (formattedStartTime eng req) (formattedEndTime eng req) req.duration with
          | none =>
            ⟨some errorBooking, db, [.selectStudent, .selectMentor, .selectOverlap,
              .insertAppointment]⟩
          | some (db1, appointmentId) =>
            match insertPayment db1 f.payment req.student_id req.mentor_id req.duration
                req.amount appointmentId with
            | none =>
              ⟨some errorPayment, db1, [.selectStudent, .selectMentor, .selectOverlap,
                .insertAppointment, .insertPayment]⟩
            | some (db2, _) =>
              ⟨some booked, db2, [.selectStudent, .selectMentor, .selectOverlap,
                .insertAppointment, .insertPayment]⟩
        else
          ⟨some slotUnavailable, db, [.selectStudent, .selectMentor, .selectOverlap]⟩

/-! ## The administrative routes and sequences of requests -/

/-- A request to one of the state-changing routes modelled here; the flag of a deletion says
whether its statement fails. -/
inductive Op where
  | book (f : Faults) (req : Request)
  | deleteAppointments (fails : Bool)
  | deletePayments (fails : Bool)
  | deleteMentor (fails : Bool) (id : Nat)
  | deleteStudent (fails : Bool) (id : Nat)
  | deleteStudents (fails : Bool)
  | deleteMentors (fails : Bool)
  deriving DecidableEq, Repr

/-- Database after one request. -/
def step (eng : Engine) (db : Db) (op : Op) : Db :=
  match op with
  | .book f req => (bookAppointment eng db f req).db
  | .deleteAppointments fails => if fails then db else { db with appointments := [] }
  | .deletePayments fails => if fails then db else { db with payments := [] }
  | .deleteMentor fails id =>
    if fails then db else { db with mentors := db.mentors.filter (fun m => m.id != id) }
  | .deleteStudent fails id =>
    if fails then db else { db with students := db.students.filter (fun s => s.id != id) }
  | .deleteStudents fails => if fails then db else { db with students := [] }
  | .deleteMentors fails => if fails then db else { db with mentors := [] }

/-- Database after a sequence of requests, each run to completion before the next. -/
def run (eng : Engine) (db : Db) (ops : List Op) : Db :=
  ops.foldl (step eng) db

/-! ## Two requests in flight -/

/-- Where the handler of a request stands: the database call it has issued and is waiting
for, or the end. -/
inductive Phase where
  | atStudent
  | atMentor (student : Student)
  | atCheck
  | atAppointment
  | atPayment (appointmentId : Nat)
  | done (response : Option Response)
  deriving DecidableEq, Repr

/-- One database call of the handler together with the callback it triggers, which ends the
request or issues the next call. -/
def advance (eng : Engine) (f : Faults) (req : Request) (db : Db) (p : Phase) : Db × Phase :=
  match p with
  | .atStudent =>
    match selectStudent db f.student req.student_id with
    | none => (db, .done (some studentNotFound))
    | some student => (db, .atMentor student)
  | .atMentor student =>
    match selectMentor db f.mentor req.mentor_id with
    | none => (db, .done (some mentorNotFound))
    | some mentor =>
      match mentor.expertise.includes student.area_of_interest with
      | none => (db, .done none)
      | some false => (db, .done (some notEligible))
      | some true => (db, .atCheck)
  | .atCheck =>
    if checkAvailability db f.availability req.mentor_id req.date
        (formattedStartTime eng req) (formattedEndTime eng req) then
      (db, .atAppointment)
    else (db, .done (some slotUnavailable))
  | .atAppointment =>
    match insertAppointment db f.appointment req.student_id req.mentor_id req.date
        (formattedStartTime eng req) (formattedEndTime eng req) req.duration with
    | none => (db, .done (some errorBooking))
    | some (db1, appointmentId) => (db1, .atPayment appointmentId)
  | .atPayment appointmentId =>
    match insertPayment db f.payment req.student_id req.mentor_id req.duration req.amount
        appointmentId with
    | none => (db, .done (some errorPayment))
    | some (db2, _) => (db2, .done (some booked))
  | .done response => (db, .done response)

/-- The database and the two handlers of two requests in flight, named `true` and `false`. -/
structure Pair where
  db : Db
  phase : Bool → Phase

/-- Both requests have just arrived. -/
def startPair (db : Db) : Pair :=
  ⟨db, fun _ => .atStudent⟩

/-- The next database call of request `who` is executed. -/
def stepPair (eng : Engine) (f : Bool → Faults) (req : Bool → Request) (st : Pair)
    (who : Bool) : Pair :=
  ⟨(advance eng (f who) (req who) st.db (st.phase who)).1,
   fun w => if w = who then (advance eng (f who) (req who) st.db (st.phase who)).2
            else st.phase w⟩

/-- The database calls of the two requests are executed in the order `sched`. -/
def runPair (eng : Engine) (f : Bool → Faults) (req : Bool → Request) (st : Pair)
    (sched : List Bool) : Pair :=
  sched.foldl (stepPair eng f req) st

/-- The handler has inserted its row into `Appointments`. -/
def Phase.inserted (p : Phase) : Bool :=
  match p with
  | .atPayment _ => true
  | .done response => response == some booked || response == some errorPayment
  | _ => false

/-! ## Predicates of the specification -/

/-- The overlap test of the specification for `[s1, e1)` and `[s2, e2)`: `s1 < e2 AND s2 < e1`,
on the stored time texts. -/
def overlaps (s1 e1 s2 e2 : String) : Prop :=
  s1.data < e2.data ∧ s2.data < e1.data

instance (s1 e1 s2 e2 : String) : Decidable (overlaps s1 e1 s2 e2) := by
  unfold overlaps; infer_instance

/-- No two rows of `Appointments` for the same mentor and date overlap. -/
def NoDoubleBooking (db : Db) : Prop :=
  db.appointments.Pairwise (fun a b =>
    a.mentor_id = b.mentor_id → a.date = b.date →
      ¬ overlaps a.start_time a.end_time b.start_time b.end_time)

/-- Day number of a `date` text `YYYY-MM-DD` that names a real calendar date. -/
def isoDate (s : String) : Option Int :=
  match s.data with
  | [y1, y2, y3, y4, '-', m1, m2, '-', d1, d2] => civilDate y1 y2 y3 y4 m1 m2 d1 d2
  | _ => none

/-- Minutes since midnight of a time text `HH:MM`, hour `00..23` and minute `00..59`. -/
def isoTime (s : String) : Option Nat :=
  match s.data with
  | [h1, h2, ':', m1, m2] =>
    match twoDigits h1 h2, twoDigits m1 m2 with
    | some h, some m => if h < 24 ∧ m < 60 then some (h * 60 + m) else none
    | _, _ => none
  | _ => none

/-- The text `HH:MM` of a minute of the day. -/
def clockText (minutes : Nat) : String :=
  String.mk (pad2 (minutes / 60) ++ ':' :: pad2 (minutes % 60))

/-- The server's local time zone keeps one offset from UTC, of less than a day (no
daylight-saving or other clock change). -/
def ConstantZone (eng : Engine) (offset : Int) : Prop :=
  (∀ t isUTC, eng.localTZA t isUTC = offset) ∧ -86400000 < offset ∧ offset < 86400000

/-- The row `a` has the mentor, date and times that the handler of `req` inserts. -/
def RowOf (eng : Engine) (req : Request) (a : Appointment) : Prop :=
  a.mentor_id = req.mentor_id ∧ a.date = req.date ∧
    a.start_time = formattedStartTime eng req ∧ a.end_time = formattedEndTime eng req

/-- Every handler that has inserted its appointment has a row of its request in the table. -/
def RowsPresent (eng : Engine) (req : Bool → Request) (st : Pair) : Prop :=
  ∀ w, (st.phase w).inserted = true → ∃ a ∈ st.db.appointments, RowOf eng (req w) a

/-- The row the handler inserts into `Appointments`. -/
def newAppointment (eng : Engine) (db : Db) (req : Request) : Appointment :=
  ⟨nextKey db.appointmentSeq (db.appointments.map (fun a => a.id)), req.mentor_id,
    req.student_id, req.date, formattedStartTime eng req, formattedEndTime eng req, req.duration⟩

/-- The row the handler inserts into `Payments` after `newAppointment`. -/
def newPayment (eng : Engine) (db : Db) (req : Request) : Payment :=
  ⟨nextKey db.paymentSeq (db.payments.map (fun p => p.id)), req.student_id, req.mentor_id,
    req.duration, req.amount, (newAppointment eng db req).id⟩

/-! ## Sample data -/

/-- An engine on a server in zone UTC that reads no other date formats. -/
def utcEngine : Engine :=
  ⟨fun _ _ => 0, fun _ => none⟩

/-- An engine on a server whose zone moves from UTC-5 to UTC-4 at 2024-03-10T07:00Z, as US
Eastern time did (02:00 local becomes 03:00). -/
def easternEngine : Engine :=
  ⟨fun t isUTC =>
    if isUTC then (if t < 1710054000000 then -18000000 else -14400000)
    else (if t < 1710039600000 then -18000000 else -14400000),
   fun _ => none⟩

/-- Two requests of student 1 with mentor 1 on 2024-05-01: `true` for 10:00 and `false` for
10:15, 30 minutes each. -/
def twoRequests (who : Bool) : Request :=
  if who then ⟨1, 1, "2024-05-01", "10:00", 30, 50⟩ else ⟨1, 1, "2024-05-01", "10:15", 30, 50⟩

/-- A registry with one student and one mentor and empty ledgers. -/
def sampleDb : Db :=
  { mentors := [⟨1, "Ada", .array ["biology"], false⟩],
    students := [⟨1, "Bob", "biology"⟩],
    appointments := [], payments := [], appointmentSeq := 0, paymentSeq := 0 }

/-- Booking on 2024-05-01 by student 1 with mentor 1. -/
def sampleReq (start_time : String) (duration : Int) : Request :=
  ⟨1, 1, "2024-05-01", start_time, duration, 50⟩

/-- An appointment of student 1 with mentor 1 on 2024-05-01. -/
def sampleSlot (start_time end_time : String) (duration : Int) : Appointment :=
  ⟨1, 1, 1, "2024-05-01", start_time, end_time, duration⟩

/-- The sample registry with the given rows in `Appointments`. -/
def withAppointments (rows : List Appointment) : Db :=
  { sampleDb with appointments := rows, appointmentSeq := rows.length }

/-- The sample registry with `[09:00,09:30)` and `[09:30,10:00)` booked on 2024-05-01. -/
def morningDb : Db :=
  { sampleDb with
    appointments := [⟨1, 1, 1, "2024-05-01", "09:00", "09:30", 30⟩,
                     ⟨2, 1, 1, "2024-05-01", "09:30", "10:00", 30⟩],
    appointmentSeq := 2 }

/-- A registry whose mentor 1 has expertise `["math","physics"]`, with student 1 interested in
"math" and student 2 in "art". -/
def mathDb : Db :=
  { mentors := [⟨1, "Ada", .array ["math", "physics"], false⟩],
    students := [⟨1, "Bob", "math"⟩, ⟨2, "Cy", "art"⟩],
    appointments := [], payments := [], appointmentSeq := 0, paymentSeq := 0 }

/-! ## Lemmas on the availability query -/

theorem overlapWhere_eq_true_iff (a : Appointment) (mentor_id : Nat)
    (date start_time end_time : String) :
    overlapWhere a mentor_id date start_time end_time = true ↔
      a.mentor_id = mentor_id ∧ a.date = date ∧
      ((a.start_time.data < end_time.data ∧ start_time.data < a.end_time.data) ∨
       (a.start_time.data < start_time.data ∧ end_time.data < a.end_time.data) ∨
       (start_time.data ≤ a.start_time.data ∧ a.end_time.data ≤ end_time.data)) := by
  simp only [overlapWhere, Bool.and_eq_true, Bool.or_eq_true, beq_iff_eq, decide_eq_true_eq,
    gt_iff_lt, ge_iff_le, and_assoc, or_assoc]

theorem overlapWhere_of_overlaps (a : Appointment) (start_time end_time : String)
    (h : overlaps a.start_time a.end_time start_time end_time) :
    overlapWhere a a.mentor_id a.date start_time end_time = true := by
  rw [overlapWhere_eq_true_iff]
  exact ⟨rfl, rfl, Or.inl h⟩

theorem overlapWhere_iff_overlaps (a : Appointment) (mentor_id : Nat)
    (date start_time end_time : String)
    (ha : a.start_time.data < a.end_time.data) (hw : start_time.data < end_time.data) :
    overlapWhere a mentor_id date start_time end_time = true ↔
      a.mentor_id = mentor_id ∧ a.date = date ∧
        overlaps a.start_time a.end_time start_time end_time := by
  rw [overlapWhere_eq_true_iff]
  unfold overlaps
  constructor
  · rintro ⟨hm, hd, h | h | h⟩
    · exact ⟨hm, hd, h⟩
    · exact ⟨hm, hd, lt_trans h.1 hw, lt_trans hw h.2⟩
    · exact ⟨hm, hd, lt_of_lt_of_le ha h.2, lt_of_le_of_lt h.1 ha⟩
  · rintro ⟨hm, hd, h⟩
    exact ⟨hm, hd, Or.inl h⟩

theorem checkAvailability_eq_false_iff (db : Db) (mentor_id : Nat)
    (date start_time end_time : String) :
    checkAvailability db false mentor_id date start_time end_time = false ↔
      ∃ a ∈ db.appointments, overlapWhere a mentor_id date start_time end_time = true := by
  simp only [checkAvailability, selectOverlap, Bool.false_eq_true, if_false]
  cases h : db.appointments.find? (fun a => overlapWhere a mentor_id date start_time end_time) with
  | none =>
    simp only [Option.isNone_none, Bool.true_eq_false, false_iff, not_exists, not_and]
    intro a ha
    have := List.find?_eq_none.mp h a ha
    simpa using this
  | some b =>
    simp only [Option.isNone_some, true_iff]
    exact ⟨b, List.mem_of_find?_eq_some h,
      List.find?_some (p := fun a => overlapWhere a mentor_id date start_time end_time) h⟩

theorem checkAvailability_fails (db : Db) (mentor_id : Nat) (date start_time end_time : String) :
    checkAvailability db true mentor_id date start_time end_time = false := by
  simp [checkAvailability, selectOverlap]

/-! ## The three ways a booking request can end -/

theorem bookAppointment_cases (eng : Engine) (db : Db) (f : Faults) (req : Request) :
    ((bookAppointment eng db f req).db = db ∧
      (bookAppointment eng db f req).response ≠ some booked ∧
      (bookAppointment eng db f req).response ≠ some errorPayment) ∨
    (checkAvailability db f.availability req.mentor_id req.date
        (formattedStartTime eng req) (formattedEndTime eng req) = true ∧
      f.appointment = false ∧ f.payment = true ∧
      (bookAppointment eng db f req).response = some errorPayment ∧
      (bookAppointment eng db f req).db =
        { db with appointments := db.appointments ++ [newAppointment eng db req],
                  appointmentSeq := (newAppointment eng db req).id }) ∨
    (checkAvailability db f.availability req.mentor_id req.date
        (formattedStartTime eng req) (formattedEndTime eng req) = true ∧
      f.appointment = false ∧ f.payment = false ∧
      (bookAppointment eng db f req).response = some booked ∧
      (bookAppointment eng db f req).db =
        { db with appointments := db.appointments ++ [newAppointment eng db req],
                  appointmentSeq := (newAppointment eng db req).id,
                  payments := db.payments ++ [newPayment eng db req],
                  paymentSeq := (newPayment eng db req).id }) := by
  unfold bookAppointment
  cases selectStudent db f.student req.student_id with
  | none => left; refine ⟨rfl, ?_, ?_⟩ <;> (dsimp only; decide)
  | some student =>
    cases selectMentor db f.mentor req.mentor_id with
    | none => left; refine ⟨rfl, ?_, ?_⟩ <;> (dsimp only; decide)
    | some mentor =>
      dsimp only
      cases mentor.expertise.includes student.area_of_interest with
      | none => left; refine ⟨rfl, ?_, ?_⟩ <;> (dsimp only; decide)
      | some b =>
        cases b with
        | false => left; refine ⟨rfl, ?_, ?_⟩ <;> (dsimp only; decide)
        | true =>
          dsimp only
          cases hav : checkAvailability db f.availability req.mentor_id req.date
              (formattedStartTime eng req) (formattedEndTime eng req) with
          | false => left; refine ⟨?_, ?_, ?_⟩ <;> simp <;> decide
          | true =>
            cases ha : f.appointment with
            | true =>
              left
              refine ⟨?_, ?_, ?_⟩ <;> simp [insertAppointment] <;> decide
            | false =>
              cases hp : f.payment with
              | true =>
                right; left
                simp [insertAppointment, insertPayment, newAppointment]
              | false =>
                right; right
                simp [insertAppointment, insertPayment, newAppointment, newPayment]

/-! ## Preservation of the no-double-booking invariant by one request -/

theorem noDoubleBooking_append (db : Db) (mentor_id : Nat) (date start_time end_time : String)
    (a : Appointment) (hm : a.mentor_id = mentor_id) (hd : a.date = date)
    (hs : a.start_time = start_time) (he : a.end_time = end_time)
    (h : NoDoubleBooking db) (fails : Bool)
    (hav : checkAvailability db fails mentor_id date start_time end_time = true) :
    (db.appointments ++ [a]).Pairwise (fun x y =>
      x.mentor_id = y.mentor_id → x.date = y.date →
        ¬ overlaps x.start_time x.end_time y.start_time y.end_time) := by
  cases fails with
  | true => rw [checkAvailability_fails] at hav; exact absurd hav (by decide)
  | false =>
    rw [List.pairwise_append]
    refine ⟨h, List.pairwise_singleton _ _, ?_⟩
    intro x hx y hy hxm hxd hov
    rw [List.mem_singleton] at hy
    subst hy
    have hno : ¬ ∃ b ∈ db.appointments,
        overlapWhere b mentor_id date start_time end_time = true := by
      rw [← checkAvailability_eq_false_iff, hav]; decide
    apply hno
    refine ⟨x, hx, ?_⟩
    rw [← hm, ← hd, ← hs, ← he, ← hxm, ← hxd]
    exact overlapWhere_of_overlaps x y.start_time y.end_time hov

theorem bookAppointment_noDoubleBooking (eng : Engine) (db : Db) (f : Faults) (req : Request)
    (h : NoDoubleBooking db) : NoDoubleBooking (bookAppointment eng db f req).db := by
  rcases bookAppointment_cases eng db f req with ⟨e, _⟩ | ⟨hav, _, _, _, e⟩ | ⟨hav, _, _, _, e⟩
  · rw [e]; exact h
  · rw [e]
    exact noDoubleBooking_append db req.mentor_id req.date _ _ (newAppointment eng db req)
      rfl rfl rfl rfl h f.availability hav
  · rw [e]
    exact noDoubleBooking_append db req.mentor_id req.date _ _ (newAppointment eng db req)
      rfl rfl rfl rfl h f.availability hav

theorem step_noDoubleBooking (eng : Engine) (db : Db) (op : Op) (h : NoDoubleBooking db) :
    NoDoubleBooking (step eng db op) := by
  cases op with
  | book f req => exact bookAppointment_noDoubleBooking eng db f req h
  | deleteAppointments fails =>
    cases fails
    · exact List.Pairwise.nil
    · exact h
  | deletePayments fails => cases fails <;> exact h
  | deleteMentor fails id => cases fails <;> exact h
  | deleteStudent fails id => cases fails <;> exact h
  | deleteStudents fails => cases fails <;> exact h
  | deleteMentors fails => cases fails <;> exact h

/-! ## Reading a date-time text and formatting a time of day -/

theorem digitVal_ofNat (d : Nat) (h : d < 10) : digitVal (Char.ofNat (48 + d)) = some d := by
  interval_cases d <;> rfl

theorem twoDigits_pad2 (n : Nat) (h : n < 100) :
    twoDigits (Char.ofNat (48 + n / 10)) (Char.ofNat (48 + n % 10)) = some n := by
  unfold twoDigits
  rw [digitVal_ofNat (n / 10) (by omega), digitVal_ofNat (n % 10) (by omega)]
  simp only [Option.some.injEq]
  omega

theorem digit_lt (a b : Nat) (hb : b < 10) (h : a < b) :
    Char.ofNat (48 + a) < Char.ofNat (48 + b) := by
  interval_cases b <;> interval_cases a <;> decide

theorem isoTime_clockText (n : Nat) (h : n < 1440) :
    isoTime (clockText n) = some n := by
  simp only [clockText, isoTime, pad2, List.cons_append, List.nil_append]
  rw [twoDigits_pad2 (n / 60) (by omega), twoDigits_pad2 (n % 60) (by omega)]
  simp only
  rw [if_pos (by omega)]
  simp only [Option.some.injEq]
  omega

theorem digit_cons_lt (x y : Nat) (l1 l2 : List Char) (hy : y < 10)
    (h : x < y ∨ (x = y ∧ l1 < l2)) :
    Char.ofNat (48 + x) :: l1 < Char.ofNat (48 + y) :: l2 := by
  rcases h with h | ⟨rfl, h⟩
  · exact List.Lex.rel (digit_lt x y hy h)
  · exact List.Lex.cons h

theorem clockText_lt (a b : Nat) (hb : b < 1440) (h : a < b) :
    (clockText a).data < (clockText b).data := by
  simp only [clockText, pad2, List.cons_append, List.nil_append]
  apply digit_cons_lt _ _ _ _ (by omega)
  by_cases h1 : a / 60 / 10 < b / 60 / 10
  · exact Or.inl h1
  · refine Or.inr ⟨by omega, ?_⟩
    apply digit_cons_lt _ _ _ _ (by omega)
    by_cases h2 : a / 60 % 10 < b / 60 % 10
    · exact Or.inl h2
    · refine Or.inr ⟨by omega, ?_⟩
      apply List.Lex.cons
      apply digit_cons_lt _ _ _ _ (by omega)
      by_cases h3 : a % 60 / 10 < b % 60 / 10
      · exact Or.inl h3
      · refine Or.inr ⟨by omega, ?_⟩
        apply digit_cons_lt _ _ _ _ (by omega)
        by_cases h4 : a % 60 % 10 < b % 60 % 10
        · exact Or.inl h4
        · exfalso; omega

theorem digitVal_lt (c : Char) (d : Nat) (h : digitVal c = some d) : d < 10 := by
  unfold digitVal at h
  split at h
  · simp only [Option.some.injEq] at h
    omega
  · exact absurd h (by simp)

theorem twoDigits_lt (a b : Char) (n : Nat) (h : twoDigits a b = some n) : n < 100 := by
  unfold twoDigits at h
  split at h
  · rename_i x y hx hy
    have := digitVal_lt a x hx
    have := digitVal_lt b y hy
    simp only [Option.some.injEq] at h
    omega
  · exact absurd h (by simp)

theorem daysInMonth_le (y m : Nat) : daysInMonth y m ≤ 31 := by
  unfold daysInMonth
  split
  · split <;> omega
  · split <;> omega

theorem daysFromCivil_bounds (y m d : Int) (hy0 : 0 ≤ y) (hy1 : y ≤ 9999) (hm0 : 1 ≤ m)
    (hm1 : m ≤ 12) (hd0 : 1 ≤ d) (hd1 : d ≤ 31) :
    -719528 ≤ daysFromCivil y m d ∧ daysFromCivil y m d ≤ 2932927 := by
  unfold daysFromCivil
  simp only
  split <;> split <;> omega

theorem civilDate_bounds (y1 y2 y3 y4 m1 m2 d1 d2 : Char) (day : Int)
    (h : civilDate y1 y2 y3 y4 m1 m2 d1 d2 = some day) :
    -719528 ≤ day ∧ day ≤ 2932927 := by
  unfold civilDate at h
  split at h
  · rename_i a b m d ha hb hm hd
    have := twoDigits_lt _ _ _ ha
    have := twoDigits_lt _ _ _ hb
    split at h
    · rename_i hc
      have := daysInMonth_le (100 * a + b) m
      simp only [Option.some.injEq] at h
      rw [← h]
      exact daysFromCivil_bounds _ _ _ (by omega) (by omega) (by omega) (by omega) (by omega)
        (by omega)
    · exact absurd h (by simp)
  · exact absurd h (by simp)

theorem isoDate_bounds (s : String) (day : Int) (h : isoDate s = some day) :
    -719528 ≤ day ∧ day ≤ 2932927 := by
  unfold isoDate at h
  split at h
  · exact civilDate_bounds _ _ _ _ _ _ _ _ day h
  · exact absurd h (by simp)

theorem isoTime_lt (s : String) (t : Nat) (h : isoTime s = some t) : t < 1440 := by
  unfold isoTime at h
  split at h
  · split at h
    · split at h
      · simp only [Option.some.injEq] at h
        omega
      · exact absurd h (by simp)
    · exact absurd h (by simp)
  · exact absurd h (by simp)

theorem parseDateTime_iso (eng : Engine) (date start_time : String) (day : Int) (t : Nat)
    (hd : isoDate date = some day) (ht : isoTime start_time = some t) :
    parseDateTime eng (date ++ "T" ++ start_time) =
      some (day * 86400000 + (t : Int) * 60000 -
        eng.localTZA (day * 86400000 + (t : Int) * 60000) false) := by
  unfold isoDate at hd
  split at hd
  · rename_i y1 y2 y3 y4 m1 m2 d1 d2 hds
    unfold isoTime at ht
    split at ht
    · rename_i h1 h2 n1 n2 hts
      split at ht
      · rename_i h n hh hn
        split at ht
        · rename_i hc
          simp only [Option.some.injEq] at ht
          have hdata : (date ++ "T" ++ start_time).data =
              y1 :: y2 :: y3 :: y4 :: '-' :: m1 :: m2 :: '-' :: d1 :: d2 :: 'T' ::
                [h1, h2, ':', n1, n2] := by
            simp [String.data_append, hds, hts]
          unfold parseDateTime
          rw [hdata]
          have hms : ((((h * 60 + n) * 60 + 0) * 1000 + 0 : Nat) : Int) = (t : Int) * 60000 := by
            rw [← ht]; push_cast; ring
          simp only [hd, parseClock, clockValue, hh, hn, hc, true_and, parseZone, hms,
            Nat.ofNat_pos, true_or, if_true]
        · exact absurd ht (by simp)
      · exact absurd ht (by simp)
    · exact absurd ht (by simp)
  · exact absurd hd (by simp)

theorem timeClip_of_range (v : Int) (h0 : -8640000000000000 ≤ v) (h1 : v ≤ 8640000000000000) :
    timeClip (some v) = some v := by
  simp [timeClip, h0, h1]

theorem toTimeString5_constant (eng : Engine) (offset day x : Int)
    (hz : ConstantZone eng offset) :
    toTimeString5 eng (some (day * 86400000 + x * 60000 - offset)) =
      clockText (x % 1440).toNat := by
  simp only [toTimeString5, localTime, hz.1, clockText]
  have e1 : ((day * 86400000 + x * 60000 - offset + offset) / 3600000 % 24).toNat =
      (x % 1440).toNat / 60 := by omega
  have e2 : ((day * 86400000 + x * 60000 - offset + offset) / 60000 % 60).toNat =
      (x % 1440).toNat % 60 := by omega
  rw [e1, e2]

theorem setMinutes_constant (eng : Engine) (offset tv d : Int) (hz : ConstantZone eng offset) :
    setMinutes eng (some tv) ((getMinutes eng (some tv)).map (fun m => m + d)) =
      timeClip (some (tv + d * 60000)) := by
  simp only [setMinutes, getMinutes, localTime, hz.1, Option.map_some']
  congr 2
  omega

theorem startTime_iso (eng : Engine) (req : Request) (offset day : Int) (t : Nat)
    (hz : ConstantZone eng offset) (hd : isoDate req.date = some day)
    (ht : isoTime req.start_time = some t) :
    startTime eng req = some (day * 86400000 + (t : Int) * 60000 - offset) := by
  have hb := isoDate_bounds req.date day hd
  have htl := isoTime_lt req.start_time t ht
  obtain ⟨hz1, hz2, hz3⟩ := hz
  rw [startTime, newDate, parseDateTime_iso eng req.date req.start_time day t hd ht, hz1]
  exact timeClip_of_range _ (by omega) (by omega)

theorem endTime_iso (eng : Engine) (req : Request) (offset day : Int) (t : Nat)
    (hz : ConstantZone eng offset) (hd : isoDate req.date = some day)
    (ht : isoTime req.start_time = some t)
    (h0 : -100000000000 ≤ req.duration) (h1 : req.duration ≤ 100000000000) :
    endTime eng req =
      some (day * 86400000 + ((t : Int) + req.duration) * 60000 - offset) := by
  have hb := isoDate_bounds req.date day hd
  have htl := isoTime_lt req.start_time t ht
  rw [endTime, startTime_iso eng req offset day t hz hd ht,
    setMinutes_constant eng offset _ req.duration hz]
  obtain ⟨_, hz2, hz3⟩ := hz
  rw [timeClip_of_range _ (by omega) (by omega)]
  congr 1
  ring

theorem formattedStartTime_iso (eng : Engine) (req : Request) (offset day : Int) (t : Nat)
    (hz : ConstantZone eng offset) (hd : isoDate req.date = some day)
    (ht : isoTime req.start_time = some t) :
    formattedStartTime eng req = clockText t := by
  have htl := isoTime_lt req.start_time t ht
  rw [formattedStartTime, startTime_iso eng req offset day t hz hd ht,
    toTimeString5_constant eng offset day t hz]
  congr 1
  omega

theorem formattedEndTime_iso (eng : Engine) (req : Request) (offset day : Int) (t : Nat)
    (hz : ConstantZone eng offset) (hd : isoDate req.date = some day)
    (ht : isoTime req.start_time = some t)
    (h0 : -100000000000 ≤ req.duration) (h1 : req.duration ≤ 100000000000) :
    formattedEndTime eng req = clockText (((t : Int) + req.duration) % 1440).toNat := by
  rw [formattedEndTime, endTime_iso eng req offset day t hz hd ht h0 h1,
    toTimeString5_constant eng offset day _ hz]

/-! ## The checks before the availability query -/

theorem bookAppointment_eligible (eng : Engine) (db : Db) (f : Faults) (req : Request) (s : Student)
    (m : Mentor) (hs : selectStudent db f.student req.student_id = some s)
    (hm : selectMentor db f.mentor req.mentor_id = some m)
    (he : m.expertise.includes s.area_of_interest = some true) :
    DbCall.selectOverlap ∈ (bookAppointment eng db f req).calls ∧
    (bookAppointment eng db f req).response ≠ some notEligible := by
  unfold bookAppointment
  simp only [hs, hm, he]
  cases checkAvailability db f.availability req.mentor_id req.date
      (formattedStartTime eng req) (formattedEndTime eng req) with
  | false => refine ⟨by simp, ?_⟩; simp; decide
  | true =>
    cases ha : f.appointment with
    | true => refine ⟨by simp [insertAppointment], ?_⟩; simp [insertAppointment]; decide
    | false =>
      cases hp : f.payment with
      | true =>
        refine ⟨by simp [insertAppointment, insertPayment], ?_⟩
        simp [insertAppointment, insertPayment]; decide
      | false =>
        refine ⟨by simp [insertAppointment, insertPayment], ?_⟩
        simp [insertAppointment, insertPayment]; decide

theorem bookAppointment_selectOverlap (eng : Engine) (db : Db) (f : Faults) (req : Request)
    (h : DbCall.selectOverlap ∈ (bookAppointment eng db f req).calls) :
    ∃ s m, selectStudent db f.student req.student_id = some s ∧
      selectMentor db f.mentor req.mentor_id = some m ∧
      m.expertise.includes s.area_of_interest = some true := by
  unfold bookAppointment at h
  cases hs : selectStudent db f.student req.student_id with
  | none => rw [hs] at h; simp at h
  | some s =>
    cases hm : selectMentor db f.mentor req.mentor_id with
    | none => rw [hs, hm] at h; simp at h
    | some m =>
      cases he : m.expertise.includes s.area_of_interest with
      | none => simp only [hs, hm, he] at h; simp at h
      | some b =>
        cases b with
        | false => simp only [hs, hm, he] at h; simp at h
        | true => exact ⟨s, m, rfl, rfl, he⟩

theorem slotUnavailable_requires_busy (eng : Engine) (db : Db) (f : Faults) (req : Request)
    (hav : checkAvailability db f.availability req.mentor_id req.date
      (formattedStartTime eng req) (formattedEndTime eng req) = true) :
    (bookAppointment eng db f req).response ≠ some slotUnavailable := by
  unfold bookAppointment
  cases selectStudent db f.student req.student_id with
  | none => dsimp only; decide
  | some student =>
    cases selectMentor db f.mentor req.mentor_id with
    | none => dsimp only; decide
    | some mentor =>
      dsimp only
      cases mentor.expertise.includes student.area_of_interest with
      | none => dsimp only; decide
      | some b =>
        cases b with
        | false => dsimp only; decide
        | true =>
          simp only [hav, if_true]
          cases ha : f.appointment with
          | true => simp [insertAppointment]; decide
          | false =>
            cases hp : f.payment with
            | true => simp [insertAppointment, insertPayment]; decide
            | false => simp [insertAppointment, insertPayment]; decide

/-! ## The request that goes through -/

theorem bookAppointment_booked (eng : Engine) (db : Db) (req : Request) (s : Student) (m : Mentor)
    (hs : db.students.find? (fun x => x.id == req.student_id) = some s)
    (hm : db.mentors.find? (fun x => x.id == req.mentor_id) = some m)
    (he : m.expertise.includes s.area_of_interest = some true)
    (hav : checkAvailability db false req.mentor_id req.date
      (formattedStartTime eng req) (formattedEndTime eng req) = true) :
    bookAppointment eng db noFaults req =
      ⟨some booked,
       { db with appointments := db.appointments ++ [newAppointment eng db req],
                 appointmentSeq := (newAppointment eng db req).id,
                 payments := db.payments ++ [newPayment eng db req],
                 paymentSeq := (newPayment eng db req).id },
       [.selectStudent, .selectMentor, .selectOverlap, .insertAppointment, .insertPayment]⟩ := by
  unfold bookAppointment
  simp only [selectStudent, selectMentor, noFaults, Bool.false_eq_true, if_false, hs, hm, he,
    hav, if_true, insertAppointment, insertPayment, newAppointment, newPayment]

/-! ## Interleaved database calls -/

theorem runPair_alone (eng : Engine) (f : Bool → Faults) (req : Bool → Request) (db : Db) :
    (runPair eng f req (startPair db) [true, true, true, true, true]).db =
      (bookAppointment eng db (f true) (req true)).db ∧
    (runPair eng f req (startPair db) [true, true, true, true, true]).phase true =
      .done (bookAppointment eng db (f true) (req true)).response := by
  cases hs : selectStudent db (f true).student (req true).student_id with
  | none => simp [runPair, stepPair, startPair, advance, bookAppointment, hs]
  | some student =>
    cases hm : selectMentor db (f true).mentor (req true).mentor_id with
    | none => simp [runPair, stepPair, startPair, advance, bookAppointment, hs, hm]
    | some mentor =>
      cases he : mentor.expertise.includes student.area_of_interest with
      | none => simp [runPair, stepPair, startPair, advance, bookAppointment, hs, hm, he]
      | some b =>
        cases b with
        | false => simp [runPair, stepPair, startPair, advance, bookAppointment, hs, hm, he]
        | true =>
          cases hc : checkAvailability db (f true).availability (req true).mentor_id
              (req true).date (formattedStartTime eng (req true))
              (formattedEndTime eng (req true)) with
          | false =>
            simp [runPair, stepPair, startPair, advance, bookAppointment, hs, hm, he, hc]
          | true =>
            cases ha : (f true).appointment with
            | true =>
              simp [runPair, stepPair, startPair, advance, bookAppointment, hs, hm, he, hc,
                insertAppointment, ha]
            | false =>
              cases hp : (f true).payment with
              | true =>
                simp [runPair, stepPair, startPair, advance, bookAppointment, hs, hm, he, hc,
                  insertAppointment, insertPayment, ha, hp]
              | false =>
                simp [runPair, stepPair, startPair, advance, bookAppointment, hs, hm, he, hc,
                  insertAppointment, insertPayment, ha, hp]

theorem advance_mem (eng : Engine) (f : Faults) (req : Request) (db : Db) (p : Phase)
    (a : Appointment) (ha : a ∈ db.appointments) :
    a ∈ (advance eng f req db p).1.appointments := by
  cases p with
  | atStudent => simp only [advance]; split <;> exact ha
  | atMentor student =>
    simp only [advance]
    split
    · exact ha
    · split <;> exact ha
  | atCheck => simp only [advance]; split <;> exact ha
  | atAppointment =>
    simp only [advance, insertAppointment]
    cases f.appointment with
    | true => exact ha
    | false => simp [ha]
  | atPayment id =>
    simp only [advance, insertPayment]
    cases f.payment with
    | true => exact ha
    | false => exact ha
  | done r => exact ha

theorem advance_inserted (eng : Engine) (f : Faults) (req : Request) (db : Db) (p : Phase)
    (h : (advance eng f req db p).2.inserted = true) :
    p.inserted = true ∨ ∃ a ∈ (advance eng f req db p).1.appointments, RowOf eng req a := by
  cases p with
  | atStudent =>
    simp only [advance] at h
    split at h <;> first | exact absurd h (by dsimp only; decide) | simp [Phase.inserted] at h
  | atMentor student =>
    simp only [advance] at h
    split at h
    · exact absurd h (by dsimp only; decide)
    · split at h <;> exact absurd h (by dsimp only; decide)
  | atCheck =>
    simp only [advance] at h
    split at h <;> exact absurd h (by dsimp only; decide)
  | atAppointment =>
    right
    simp only [advance, insertAppointment] at h ⊢
    cases hf : f.appointment with
    | true => rw [hf] at h; exact absurd h (by simp only [if_true]; decide)
    | false =>
      refine ⟨newAppointment eng db req, ?_, rfl, rfl, rfl, rfl⟩
      simp [newAppointment]
  | atPayment id => left; rfl
  | done r => left; exact h

theorem stepPair_rowsPresent (eng : Engine) (f : Bool → Faults) (req : Bool → Request)
    (st : Pair) (who : Bool) (h : RowsPresent eng req st) :
    RowsPresent eng req (stepPair eng f req st who) := by
  intro w hw
  by_cases e : w = who
  · subst e
    simp only [stepPair, if_true] at hw ⊢
    rcases advance_inserted eng (f w) (req w) st.db (st.phase w) hw with h1 | h1
    · obtain ⟨a, ha, hr⟩ := h w h1
      exact ⟨a, advance_mem eng (f w) (req w) st.db (st.phase w) a ha, hr⟩
    · exact h1
  · simp only [stepPair, e, if_false] at hw ⊢
    obtain ⟨a, ha, hr⟩ := h w hw
    exact ⟨a, advance_mem eng (f who) (req who) st.db (st.phase who) a ha, hr⟩

theorem runPair_rowsPresent (eng : Engine) (f : Bool → Faults) (req : Bool → Request)
    (st : Pair) (sched : List Bool) (h : RowsPresent eng req st) :
    RowsPresent eng req (runPair eng f req st sched) := by
  induction sched generalizing st with
  | nil => exact h
  | cons who rest ih => exact ih (stepPair eng f req st who) (stepPair_rowsPresent eng f req st who h)

theorem runPair_append (eng : Engine) (f : Bool → Faults) (req : Bool → Request)
    (st : Pair) (s1 s2 : List Bool) :
    runPair eng f req st (s1 ++ s2) = runPair eng f req (runPair eng f req st s1) s2 := by
  simp [runPair, List.foldl_append]

theorem runPair_snoc (eng : Engine) (f : Bool → Faults) (req : Bool → Request)
    (st : Pair) (sched : List Bool) (who : Bool) :
    runPair eng f req st (sched ++ [who]) =
      stepPair eng f req (runPair eng f req st sched) who := by
  simp [runPair, List.foldl_append]

theorem runPair_done (eng : Engine) (f : Bool → Faults) (req : Bool → Request)
    (st : Pair) (who : Bool) (r : Option Response) (sched : List Bool)
    (h : st.phase who = .done r) :
    (runPair eng f req st sched).phase who = .done r := by
  induction sched generalizing st with
  | nil => exact h
  | cons w rest ih =>
    apply ih
    by_cases e : who = w
    · subst e
      simp only [stepPair, if_true, h, advance]
    · simp only [stepPair, e, if_false, h]

/-! ## A clock change between start and end -/

theorem eastern_spring_forward :
    formattedStartTime easternEngine ⟨1, 1, "2024-03-10", "01:30", 60, 50⟩ = "01:30" ∧
    formattedEndTime easternEngine ⟨1, 1, "2024-03-10", "01:30", 60, 50⟩ = "03:30" ∧
    formattedEndTime easternEngine ⟨1, 1, "2024-03-09", "23:30", 180, 50⟩ = "03:30" := by
  decide

/-! ## Theorems of the claims -/

/-- C1 fails as stated: with `[09:00,09:30)` stored and the candidate `[09:30,10:00)`, which no
stored appointment overlaps, a failing query makes `checkAvailability` report "not
available". -/
theorem failed_query_reports_unavailable :
    (∀ a ∈ (withAppointments [sampleSlot "09:00" "09:30" 30]).appointments,
      a.start_time.data < a.end_time.data) ∧
    "09:30".data < "10:00".data ∧
    checkAvailability (withAppointments [sampleSlot "09:00" "09:30" 30]) true 1 "2024-05-01"
      "09:30" "10:00" = false ∧
    ¬ ∃ a ∈ (withAppointments [sampleSlot "09:00" "09:30" 30]).appointments,
      a.mentor_id = 1 ∧ a.date = "2024-05-01" ∧
        a.start_time.data < "10:00".data ∧ "09:30".data < a.end_time.data := by
  decide

/-- C1, amended: when every stored appointment has `start_time < end_time` and the candidate
window has `start < end`, `checkAvailability` reports "not available" exactly when the query
itself fails or some stored appointment of the same mentor and date satisfies
`s1 < end AND start < e1`; the rows of other mentors or dates can be dropped from the table
without changing the answer. -/
theorem checkAvailability_iff_overlap (db : Db) (fails : Bool) (mentor_id : Nat)
    (date start_time end_time : String)
    (hwf : ∀ a ∈ db.appointments, a.start_time.data < a.end_time.data)
    (hwin : start_time.data < end_time.data) :
    (checkAvailability db fails mentor_id date start_time end_time = false ↔
      fails = true ∨
      ∃ a ∈ db.appointments, a.mentor_id = mentor_id ∧ a.date = date ∧
        a.start_time.data < end_time.data ∧ start_time.data < a.end_time.data) ∧
    checkAvailability db fails mentor_id date start_time end_time =
      checkAvailability
        { db with appointments :=
            db.appointments.filter (fun a => a.mentor_id == mentor_id && a.date == date) }
        fails mentor_id date start_time end_time := by
  cases fails with
  | true =>
    rw [checkAvailability_fails, checkAvailability_fails]
    exact ⟨⟨fun _ => Or.inl rfl, fun _ => rfl⟩, rfl⟩
  | false =>
    constructor
    · rw [checkAvailability_eq_false_iff]
      constructor
      · rintro ⟨a, ha, h⟩
        exact Or.inr ⟨a, ha, (overlapWhere_iff_overlaps a mentor_id date start_time end_time
          (hwf a ha) hwin).mp h⟩
      · rintro (h | ⟨a, ha, h⟩)
        · exact absurd h (by decide)
        · exact ⟨a, ha, (overlapWhere_iff_overlaps a mentor_id date start_time end_time
            (hwf a ha) hwin).mpr h⟩
    · rw [Bool.eq_iff_iff]
      rw [← not_iff_not]
      simp only [Bool.not_eq_true, checkAvailability_eq_false_iff, List.mem_filter,
        Bool.and_eq_true, beq_iff_eq]
      constructor
      · rintro ⟨a, ha, h⟩
        have h2 := (overlapWhere_eq_true_iff a mentor_id date start_time end_time).mp h
        exact ⟨a, ⟨ha, h2.1, h2.2.1⟩, h⟩
      · rintro ⟨a, ⟨ha, _⟩, h⟩
        exact ⟨a, ha, h⟩

/-- C1, amended, at the three intervals of the specification with a query that does not fail:
`[09:00,09:30)` against `[09:30,10:00)` is free, `[09:00,09:30)` against `[09:15,09:45)` and
`[09:00,10:00)` against `[09:15,09:45)` are not. -/
theorem checkAvailability_iff_overlap_witness :
    checkAvailability (withAppointments [sampleSlot "09:00" "09:30" 30]) false 1 "2024-05-01"
      "09:30" "10:00" = true ∧
    checkAvailability (withAppointments [sampleSlot "09:00" "09:30" 30]) false 1 "2024-05-01"
      "09:15" "09:45" = false ∧
    checkAvailability (withAppointments [sampleSlot "09:00" "10:00" 60]) false 1 "2024-05-01"
      "09:15" "09:45" = false := by
  refine ⟨?_, ?_, ?_⟩
  · rw [← Bool.not_eq_false,
      (checkAvailability_iff_overlap (withAppointments [sampleSlot "09:00" "09:30" 30]) false 1
        "2024-05-01" "09:30" "10:00" (by decide) (by decide)).1]
    decide
  · rw [(checkAvailability_iff_overlap (withAppointments [sampleSlot "09:00" "09:30" 30]) false
        1 "2024-05-01" "09:15" "09:45" (by decide) (by decide)).1]
    decide
  · rw [(checkAvailability_iff_overlap (withAppointments [sampleSlot "09:00" "10:00" 60]) false
        1 "2024-05-01" "09:15" "09:45" (by decide) (by decide)).1]
    decide

/-- C10 fails as stated: a stored zero-length appointment `[10:00,10:00)` touches the candidate
`[10:00,10:30)` (its end equals the candidate's start) and yet makes it unavailable, through
the third clause of the query; without that row the candidate is available. -/
theorem touching_zero_length_row_blocks :
    (sampleSlot "10:00" "10:00" 0).end_time = "10:00" ∧
    checkAvailability (withAppointments [sampleSlot "10:00" "10:00" 0]) false 1 "2024-05-01"
      "10:00" "10:30" = false ∧
    checkAvailability (withAppointments []) false 1 "2024-05-01" "10:00" "10:30" = true := by
  decide

/-- C10, amended: a stored appointment of positive length (`s1 < e1`) that merely touches the
candidate window (`e1 = start` or `end = s1`), where the candidate may have zero length
(`start ≤ end`), does not match the query and does not change the answer of
`checkAvailability`, whatever else is stored. -/
theorem touching_row_does_not_block (db : Db) (fails : Bool) (a : Appointment)
    (before after : List Appointment) (mentor_id : Nat) (date start_time end_time : String)
    (ha : a.start_time.data < a.end_time.data)
    (hw : start_time.data ≤ end_time.data)
    (htouch : a.end_time = start_time ∨ end_time = a.start_time) :
    overlapWhere a mentor_id date start_time end_time = false ∧
    checkAvailability { db with appointments := before ++ a :: after } fails mentor_id date
        start_time end_time =
      checkAvailability { db with appointments := before ++ after } fails mentor_id date
        start_time end_time := by
  have hrow : overlapWhere a mentor_id date start_time end_time = false := by
    rw [← Bool.not_eq_true, overlapWhere_eq_true_iff]
    rintro ⟨_, _, h | h | h⟩
    · rcases htouch with e | e
      · rw [e] at h; exact lt_irrefl _ h.2
      · rw [e] at h; exact lt_irrefl _ h.1
    · rcases htouch with e | e
      · rw [e] at h; exact absurd (lt_of_lt_of_le h.2 hw) (lt_irrefl _)
      · rw [e] at hw; exact absurd (lt_of_lt_of_le h.1 hw) (lt_irrefl _)
    · rcases htouch with e | e
      · rw [e] at ha; exact absurd (lt_of_le_of_lt h.1 ha) (lt_irrefl _)
      · rw [e] at h; exact absurd (lt_of_lt_of_le ha h.2) (lt_irrefl _)
  refine ⟨hrow, ?_⟩
  simp only [checkAvailability, selectOverlap, List.find?_append, List.find?_cons, hrow]

/-- C10, amended, at `[09:00,09:30)` stored and the candidates `[09:30,10:00)` and the
zero-length `[09:30,09:30)`. -/
theorem touching_row_does_not_block_witness :
    overlapWhere (sampleSlot "09:00" "09:30" 30) 1 "2024-05-01" "09:30" "09:30" = false ∧
    checkAvailability (withAppointments [sampleSlot "09:00" "09:30" 30]) false 1 "2024-05-01"
        "09:30" "09:30" =
      checkAvailability (withAppointments []) false 1 "2024-05-01" "09:30" "09:30" :=
  touching_row_does_not_block (withAppointments [sampleSlot "09:00" "09:30" 30]) false
    (sampleSlot "09:00" "09:30" 30) [] [] 1 "2024-05-01" "09:30" "09:30"
    (by decide) (by decide) (Or.inl rfl)

/-- C2: if no two stored appointments of the same mentor and date satisfy
`s1 < e2 AND s2 < e1`, the same holds after any sequence of booking requests and
administrative deletions, each run to completion before the next, whatever database calls
fail on the way. -/
theorem noDoubleBooking_run (eng : Engine) (db : Db) (ops : List Op) (h : NoDoubleBooking db) :
    NoDoubleBooking (run eng db ops) := by
  induction ops generalizing db with
  | nil => exact h
  | cons op rest ih => exact ih (step eng db op) (step_noDoubleBooking eng db op h)

/-- C2, on the scenario of the specification, starting from a table that already holds
`[09:00,09:30)` and `[09:30,10:00)`: after `[10:00,10:30)` is booked, the request for 10:15 and
30 minutes with the same mentor and date gets "Time slot not available" and adds no row, and
the table stays free of double bookings. -/
theorem noDoubleBooking_run_witness :
    NoDoubleBooking morningDb ∧
    NoDoubleBooking (run utcEngine morningDb
      [.book noFaults (sampleReq "10:00" 30), .book noFaults (sampleReq "10:15" 30)]) ∧
    (run utcEngine morningDb [.book noFaults (sampleReq "10:00" 30)]).appointments =
      morningDb.appointments ++ [⟨3, 1, 1, "2024-05-01", "10:00", "10:30", 30⟩] ∧
    bookAppointment utcEngine (run utcEngine morningDb [.book noFaults (sampleReq "10:00" 30)]) noFaults
        (sampleReq "10:15" 30) =
      ⟨some slotUnavailable, run utcEngine morningDb [.book noFaults (sampleReq "10:00" 30)],
        [.selectStudent, .selectMentor, .selectOverlap]⟩ :=
  ⟨by unfold NoDoubleBooking; decide,
   noDoubleBooking_run utcEngine morningDb
     [.book noFaults (sampleReq "10:00" 30), .book noFaults (sampleReq "10:15" 30)]
     (by unfold NoDoubleBooking; decide),
   by decide, by decide⟩

/-- C3 fails as stated: when the `Payments` insert fails after the `Appointments` insert
succeeded, the handler answers 500 "Error processing payment" and the new appointment stays
in the table without a payment. -/
theorem payment_failure_keeps_appointment :
    (bookAppointment utcEngine sampleDb { noFaults with payment := true } (sampleReq "10:00" 30)).response =
      some errorPayment ∧
    (bookAppointment utcEngine sampleDb { noFaults with payment := true } (sampleReq "10:00" 30)).db.appointments =
      sampleDb.appointments ++ [⟨1, 1, 1, "2024-05-01", "10:00", "10:30", 30⟩] ∧
    (bookAppointment utcEngine sampleDb { noFaults with payment := true } (sampleReq "10:00" 30)).db.payments =
      sampleDb.payments := by
  decide

/-- C3, amended: a completed booking request leaves the two ledgers in one of three states:
both unchanged; one new appointment and one new payment whose `appointment_id` is the new
appointment's id (response 200); or one new appointment and no new payment, which happens only
when the `Payments` insert failed after the `Appointments` insert succeeded (response 500
"Error processing payment").  A new payment without its appointment never occurs. -/
theorem bookAppointment_ledger_outcomes (eng : Engine) (db : Db) (f : Faults) (req : Request) :
    ((bookAppointment eng db f req).db.appointments = db.appointments ∧
      (bookAppointment eng db f req).db.payments = db.payments) ∨
    ((bookAppointment eng db f req).response = some booked ∧
      (bookAppointment eng db f req).db.appointments = db.appointments ++ [newAppointment eng db req] ∧
      (bookAppointment eng db f req).db.payments = db.payments ++ [newPayment eng db req] ∧
      (newPayment eng db req).appointment_id = (newAppointment eng db req).id) ∨
    ((bookAppointment eng db f req).response = some errorPayment ∧
      f.appointment = false ∧ f.payment = true ∧
      (bookAppointment eng db f req).db.appointments = db.appointments ++ [newAppointment eng db req] ∧
      (bookAppointment eng db f req).db.payments = db.payments) := by
  rcases bookAppointment_cases eng db f req with ⟨e, _⟩ | ⟨_, ha, hp, hr, e⟩ | ⟨_, _, _, hr, e⟩
  · left; rw [e]; exact ⟨rfl, rfl⟩
  · right; right; rw [e] at *; exact ⟨hr, ha, hp, rfl, rfl⟩
  · right; left; rw [e] at *; exact ⟨hr, rfl, rfl, rfl⟩

/-- C4: when the two lookups do not fail, the first failing check among student, mentor and
eligibility decides the outcome.  An absent student id gives "Student not found" whatever the
mentor id; a present student with an absent mentor id gives "Mentor not found"; with both
present and the expertise a JSON array of tags, the ineligibility rejection is sent exactly
when the student's interest is not in the array; and the availability query is issued only
when student and mentor were found and the interest is included in the expertise. -/
theorem validation_order (eng : Engine) (db : Db) (f : Faults) (req : Request)
    (hfs : f.student = false) (hfm : f.mentor = false) :
    ((∀ s ∈ db.students, s.id ≠ req.student_id) →
      (bookAppointment eng db f req).response = some studentNotFound) ∧
    (∀ s, db.students.find? (fun x => x.id == req.student_id) = some s →
      (∀ m ∈ db.mentors, m.id ≠ req.mentor_id) →
      (bookAppointment eng db f req).response = some mentorNotFound) ∧
    (∀ s m tags, db.students.find? (fun x => x.id == req.student_id) = some s →
      db.mentors.find? (fun x => x.id == req.mentor_id) = some m →
      m.expertise = .array tags →
      ((bookAppointment eng db f req).response = some notEligible ↔ s.area_of_interest ∉ tags)) ∧
    (DbCall.selectOverlap ∈ (bookAppointment eng db f req).calls →
      ∃ s m, db.students.find? (fun x => x.id == req.student_id) = some s ∧
        db.mentors.find? (fun x => x.id == req.mentor_id) = some m ∧
        m.expertise.includes s.area_of_interest = some true) := by
  have hsel : selectStudent db f.student req.student_id =
      db.students.find? (fun x => x.id == req.student_id) := by
    simp [selectStudent, hfs]
  have hselm : selectMentor db f.mentor req.mentor_id =
      db.mentors.find? (fun x => x.id == req.mentor_id) := by
    simp [selectMentor, hfm]
  refine ⟨?_, ?_, ?_, ?_⟩
  · intro h
    have hnone : db.students.find? (fun x => x.id == req.student_id) = none :=
      List.find?_eq_none.mpr (fun x hx => by simpa using h x hx)
    unfold bookAppointment
    rw [hsel, hnone]
  · intro s hs h
    have hnone : db.mentors.find? (fun x => x.id == req.mentor_id) = none :=
      List.find?_eq_none.mpr (fun x hx => by simpa using h x hx)
    unfold bookAppointment
    rw [hsel, hs, hselm, hnone]
  · intro s m tags hs hm he
    by_cases hmem : s.area_of_interest ∈ tags
    · have hinc : m.expertise.includes s.area_of_interest = some true := by
        simp [he, Expertise.includes, hmem]
      have := (bookAppointment_eligible eng db f req s m (hsel.trans hs) (hselm.trans hm) hinc).2
      exact ⟨fun h => absurd h this, fun h => absurd hmem h⟩
    · have hinc : m.expertise.includes s.area_of_interest = some false := by
        simp [he, Expertise.includes, hmem]
      refine ⟨fun _ => hmem, fun _ => ?_⟩
      unfold bookAppointment
      rw [hsel, hs, hselm, hm]
      simp only [hinc]
  · intro h
    obtain ⟨s, m, h1, h2, h3⟩ := bookAppointment_selectOverlap eng db f req h
    exact ⟨s, m, hsel ▸ h1, hselm ▸ h2, h3⟩

/-- C4, on the example of the specification: expertise `["math","physics"]` rejects the
interest "art" and does not reject "math"; an unknown student id is reported before an
unknown mentor id. -/
theorem validation_order_witness :
    (bookAppointment utcEngine mathDb noFaults ⟨2, 1, "2024-05-01", "10:00", 30, 50⟩).response =
      some notEligible ∧
    (bookAppointment utcEngine mathDb noFaults ⟨1, 1, "2024-05-01", "10:00", 30, 50⟩).response ≠
      some notEligible ∧
    (bookAppointment utcEngine mathDb noFaults ⟨7, 9, "2024-05-01", "10:00", 30, 50⟩).response =
      some studentNotFound :=
  ⟨((validation_order utcEngine mathDb noFaults ⟨2, 1, "2024-05-01", "10:00", 30, 50⟩ rfl rfl).2.2.1
      ⟨2, "Cy", "art"⟩ ⟨1, "Ada", .array ["math", "physics"], false⟩ ["math", "physics"]
      (by decide) (by decide) rfl).mpr (by decide),
   fun h =>
    ((validation_order utcEngine mathDb noFaults ⟨1, 1, "2024-05-01", "10:00", 30, 50⟩ rfl rfl).2.2.1
      ⟨1, "Bob", "math"⟩ ⟨1, "Ada", .array ["math", "physics"], false⟩ ["math", "physics"]
      (by decide) (by decide) rfl).mp h (by decide),
   (validation_order utcEngine mathDb noFaults ⟨7, 9, "2024-05-01", "10:00", 30, 50⟩ rfl rfl).1
      (by decide)⟩

/-- C5 fails as stated: with student, mentor and eligibility in order and an empty schedule, the
request for 10:00 and 1440 minutes is answered 200; the end time wraps to "10:00" and one
appointment and one payment are stored. -/
theorem midnight_crossing_accepted :
    bookAppointment utcEngine sampleDb noFaults (sampleReq "10:00" 1440) =
      ⟨some booked,
       { sampleDb with
         appointments := [⟨1, 1, 1, "2024-05-01", "10:00", "10:00", 1440⟩],
         payments := [⟨1, 1, 1, 1440, 50, 1⟩], appointmentSeq := 1, paymentSeq := 1 },
       [.selectStudent, .selectMentor, .selectOverlap, .insertAppointment, .insertPayment]⟩ := by
  decide

/-- C5, amended: on a server whose local zone keeps a constant offset, a request with a valid
date and start time whose end `start + duration` lies on a later calendar day (duration at
most 10^11 minutes, within the range of `Date`) is not rejected for that.  When student,
mentor and eligibility pass, the mentor has no appointment on that date and no database call
fails, the handler answers 200 and stores one appointment, whose `end_time` is the wall-clock
time `(start + duration) mod 1440` minutes, and one payment linked to it. -/
theorem midnight_crossing_booked (eng : Engine) (db : Db) (req : Request) (s : Student)
    (m : Mentor) (offset day : Int) (t : Nat)
    (hz : ConstantZone eng offset)
    (hs : db.students.find? (fun x => x.id == req.student_id) = some s)
    (hm : db.mentors.find? (fun x => x.id == req.mentor_id) = some m)
    (he : m.expertise.includes s.area_of_interest = some true)
    (hd : isoDate req.date = some day) (ht : isoTime req.start_time = some t)
    (hcross : 1440 ≤ (t : Int) + req.duration) (hrange : req.duration ≤ 100000000000)
    (hfree : ∀ a ∈ db.appointments, a.mentor_id = req.mentor_id → a.date ≠ req.date) :
    bookAppointment eng db noFaults req =
      ⟨some booked,
       { db with appointments := db.appointments ++ [newAppointment eng db req],
                 appointmentSeq := (newAppointment eng db req).id,
                 payments := db.payments ++ [newPayment eng db req],
                 paymentSeq := (newPayment eng db req).id },
       [.selectStudent, .selectMentor, .selectOverlap, .insertAppointment, .insertPayment]⟩ ∧
    isoTime (newAppointment eng db req).start_time = some t ∧
    isoTime (newAppointment eng db req).end_time =
      some (((t : Int) + req.duration) % 1440).toNat ∧
    (newPayment eng db req).appointment_id = (newAppointment eng db req).id := by
  have htl := isoTime_lt req.start_time t ht
  have hav : checkAvailability db false req.mentor_id req.date
      (formattedStartTime eng req) (formattedEndTime eng req) = true := by
    rw [← Bool.not_eq_false, checkAvailability_eq_false_iff]
    rintro ⟨a, ha, h⟩
    have h2 := (overlapWhere_eq_true_iff a _ _ _ _).mp h
    exact hfree a ha h2.1 h2.2.1
  refine ⟨bookAppointment_booked eng db req s m hs hm he hav, ?_, ?_, rfl⟩
  · show isoTime (formattedStartTime eng req) = some t
    rw [formattedStartTime_iso eng req offset day t hz hd ht]
    exact isoTime_clockText t htl
  · show isoTime (formattedEndTime eng req) = _
    rw [formattedEndTime_iso eng req offset day t hz hd ht (by omega) hrange]
    exact isoTime_clockText _ (by omega)

/-- C5, amended, on a UTC server at 23:30 for 45 minutes: accepted, stored as
`[23:30, 00:15)`. -/
theorem midnight_crossing_booked_witness :
    (bookAppointment utcEngine sampleDb noFaults (sampleReq "23:30" 45)).response =
      some booked ∧
    (bookAppointment utcEngine sampleDb noFaults (sampleReq "23:30" 45)).db.appointments =
      [⟨1, 1, 1, "2024-05-01", "23:30", "00:15", 45⟩] ∧
    isoTime (newAppointment utcEngine sampleDb (sampleReq "23:30" 45)).end_time = some 15 := by
  have h := midnight_crossing_booked utcEngine sampleDb (sampleReq "23:30" 45)
    ⟨1, "Bob", "biology"⟩ ⟨1, "Ada", .array ["biology"], false⟩ 0 19844 1410
    ⟨fun _ _ => rfl, by decide, by decide⟩ (by decide) (by decide) (by decide) (by decide)
    (by decide) (by decide) (by decide) (by decide)
  refine ⟨?_, ?_, h.2.2.1⟩
  · rw [h.1]
  · rw [h.1]; decide

/-- C6 fails as stated: after the accepted request for 10:00 and 1440 minutes the table holds
the row `[10:00,10:00)`, which overlaps nothing under `s1 < e2 AND s2 < e1`; the request for
10:00 and 30 minutes then meets every condition of the claim and is still answered "Time slot
not available", with nothing stored. -/
theorem same_day_request_blocked_by_empty_interval :
    (run utcEngine sampleDb [.book noFaults (sampleReq "10:00" 1440)]).appointments =
      [⟨1, 1, 1, "2024-05-01", "10:00", "10:00", 1440⟩] ∧
    (∀ a ∈ (run utcEngine sampleDb [.book noFaults (sampleReq "10:00" 1440)]).appointments,
      a.mentor_id = 1 → a.date = "2024-05-01" →
        ¬ overlaps a.start_time a.end_time "10:00" "10:30") ∧
    formattedStartTime utcEngine (sampleReq "10:00" 30) = "10:00" ∧
    formattedEndTime utcEngine (sampleReq "10:00" 30) = "10:30" ∧
    bookAppointment utcEngine (run utcEngine sampleDb [.book noFaults (sampleReq "10:00" 1440)]) noFaults
        (sampleReq "10:00" 30) =
      ⟨some slotUnavailable, run utcEngine sampleDb [.book noFaults (sampleReq "10:00" 1440)],
        [.selectStudent, .selectMentor, .selectOverlap]⟩ := by
  decide

/-- C6, amended: on a server whose local zone keeps a constant offset, let student and mentor
exist, the interest be included in the expertise, the date be a valid `YYYY-MM-DD` and
`start_time` a valid `HH:MM`, `0 < d` with `start + d` on the same day, every stored
appointment of that mentor and date have `start_time < end_time` and none of them overlap
the window, and no database call fail.  Then the handler answers 200 and the database is the
old one plus exactly one appointment `(student_id, mentor_id, date, start_time, end_time =
start + d minutes, duration d)` and exactly one payment `(student_id, mentor_id, d, amount,
appointment_id = id of the new appointment)`. -/
theorem booking_postcondition (eng : Engine) (db : Db) (req : Request) (s : Student)
    (m : Mentor) (offset day : Int) (t : Nat)
    (hz : ConstantZone eng offset)
    (hs : db.students.find? (fun x => x.id == req.student_id) = some s)
    (hm : db.mentors.find? (fun x => x.id == req.mentor_id) = some m)
    (he : m.expertise.includes s.area_of_interest = some true)
    (hd : isoDate req.date = some day) (ht : isoTime req.start_time = some t)
    (hpos : 0 < req.duration) (hday : (t : Int) + req.duration < 1440)
    (hwf : ∀ a ∈ db.appointments, a.mentor_id = req.mentor_id → a.date = req.date →
      a.start_time.data < a.end_time.data)
    (hfree : ∀ a ∈ db.appointments, a.mentor_id = req.mentor_id → a.date = req.date →
      ¬ overlaps a.start_time a.end_time (formattedStartTime eng req)
        (formattedEndTime eng req)) :
    (bookAppointment eng db noFaults req).response = some booked ∧
    (bookAppointment eng db noFaults req).db =
      { db with
        appointments := db.appointments ++
          [⟨(newAppointment eng db req).id, req.mentor_id, req.student_id, req.date,
            formattedStartTime eng req, formattedEndTime eng req, req.duration⟩],
        appointmentSeq := (newAppointment eng db req).id,
        payments := db.payments ++
          [⟨(newPayment eng db req).id, req.student_id, req.mentor_id, req.duration,
            req.amount, (newAppointment eng db req).id⟩],
        paymentSeq := (newPayment eng db req).id } ∧
    isoTime (formattedStartTime eng req) = some t ∧
    isoTime (formattedEndTime eng req) = some (t + req.duration.toNat) := by
  have htl := isoTime_lt req.start_time t ht
  have hfs := formattedStartTime_iso eng req offset day t hz hd ht
  have hfe := formattedEndTime_iso eng req offset day t hz hd ht (by omega) (by omega)
  have hcast : (((t : Int) + req.duration) % 1440).toNat = t + req.duration.toNat := by omega
  rw [hcast] at hfe
  have hwin : (formattedStartTime eng req).data < (formattedEndTime eng req).data := by
    rw [hfs, hfe]
    exact clockText_lt t (t + req.duration.toNat) (by omega) (by omega)
  have hav : checkAvailability db false req.mentor_id req.date
      (formattedStartTime eng req) (formattedEndTime eng req) = true := by
    rw [← Bool.not_eq_false, checkAvailability_eq_false_iff]
    rintro ⟨a, ha, h⟩
    have h2 := (overlapWhere_eq_true_iff a _ _ _ _).mp h
    have h3 := (overlapWhere_iff_overlaps a _ _ _ _ (hwf a ha h2.1 h2.2.1) hwin).mp h
    exact hfree a ha h2.1 h2.2.1 h3.2.2
  have hb := bookAppointment_booked eng db req s m hs hm he hav
  refine ⟨by rw [hb], by rw [hb]; rfl, ?_, ?_⟩
  · rw [hfs]; exact isoTime_clockText t htl
  · rw [hfe]; exact isoTime_clockText _ (by omega)

/-- C6, on the scenario of the specification, on a UTC server: expertise `["biology"]`,
interest "biology", 2024-05-01 at 10:00 for 30 minutes creates the appointment `[10:00,10:30)`
and a payment linked to it. -/
theorem booking_postcondition_witness :
    (bookAppointment utcEngine sampleDb noFaults (sampleReq "10:00" 30)).response =
      some booked ∧
    (bookAppointment utcEngine sampleDb noFaults (sampleReq "10:00" 30)).db =
      { sampleDb with
        appointments := [⟨1, 1, 1, "2024-05-01", "10:00", "10:30", 30⟩],
        payments := [⟨1, 1, 1, 30, 50, 1⟩], appointmentSeq := 1, paymentSeq := 1 } := by
  have h := booking_postcondition utcEngine sampleDb (sampleReq "10:00" 30)
    ⟨1, "Bob", "biology"⟩ ⟨1, "Ada", .array ["biology"], false⟩ 0 19844 600
    ⟨fun _ _ => rfl, by decide, by decide⟩ (by decide) (by decide) (by decide) (by decide)
    (by decide) (by decide) (by decide) (by decide) (by decide)
  refine ⟨h.1, ?_⟩
  rw [h.2.1]; decide

/-- C7 fails as stated: the request for 10:00 with duration 0 is accepted and stores a row
with `start_time = end_time = "10:00"`, so `start_time < end_time` does not hold for it. -/
theorem zero_duration_persisted :
    (bookAppointment utcEngine sampleDb noFaults (sampleReq "10:00" 0)).response = some booked ∧
    (bookAppointment utcEngine sampleDb noFaults (sampleReq "10:00" 0)).db.appointments =
      [⟨1, 1, 1, "2024-05-01", "10:00", "10:00", 0⟩] ∧
    ¬ ("10:00".data < "10:00".data) := by
  decide

/-- C7, amended: on a server whose local zone keeps a constant offset, for a request with a
valid date `YYYY-MM-DD` and start time `HH:MM`, `0 < duration` and `start + duration` on the
same day, the handler stores at most one appointment, and the row it stores has
`start_time < end_time`, `end_time = start_time + duration` minutes and the requested
duration.  (Durations `≤ 0` are not rejected.) -/
theorem persisted_row_wellformed (eng : Engine) (db : Db) (f : Faults) (req : Request)
    (offset day : Int) (t : Nat) (hz : ConstantZone eng offset)
    (hd : isoDate req.date = some day) (ht : isoTime req.start_time = some t)
    (hpos : 0 < req.duration) (hday : (t : Int) + req.duration < 1440) :
    ((bookAppointment eng db f req).db.appointments = db.appointments ∨
      (bookAppointment eng db f req).db.appointments =
        db.appointments ++ [newAppointment eng db req]) ∧
    (newAppointment eng db req).start_time.data < (newAppointment eng db req).end_time.data ∧
    isoTime (newAppointment eng db req).start_time = some t ∧
    isoTime (newAppointment eng db req).end_time = some (t + req.duration.toNat) ∧
    (newAppointment eng db req).duration = req.duration := by
  have htl := isoTime_lt req.start_time t ht
  have hfs := formattedStartTime_iso eng req offset day t hz hd ht
  have hfe := formattedEndTime_iso eng req offset day t hz hd ht (by omega) (by omega)
  have hcast : (((t : Int) + req.duration) % 1440).toNat = t + req.duration.toNat := by omega
  rw [hcast] at hfe
  refine ⟨?_, ?_, ?_, ?_, rfl⟩
  · rcases bookAppointment_cases eng db f req with ⟨e, _⟩ | ⟨_, _, _, _, e⟩ | ⟨_, _, _, _, e⟩
    · left; rw [e]
    · right; rw [e]
    · right; rw [e]
  · show (formattedStartTime eng req).data < (formattedEndTime eng req).data
    rw [hfs, hfe]
    exact clockText_lt t (t + req.duration.toNat) (by omega) (by omega)
  · show isoTime (formattedStartTime eng req) = some t
    rw [hfs]; exact isoTime_clockText t htl
  · show isoTime (formattedEndTime eng req) = _
    rw [hfe]; exact isoTime_clockText _ (by omega)

/-- C7, amended, on a UTC server at 10:00 for 30 minutes: the stored row is
`[10:00,10:30)`. -/
theorem persisted_row_wellformed_witness :
    (bookAppointment utcEngine sampleDb noFaults (sampleReq "10:00" 30)).db.appointments =
      sampleDb.appointments ++ [newAppointment utcEngine sampleDb (sampleReq "10:00" 30)] ∧
    newAppointment utcEngine sampleDb (sampleReq "10:00" 30) =
      ⟨1, 1, 1, "2024-05-01", "10:00", "10:30", 30⟩ ∧
    (newAppointment utcEngine sampleDb (sampleReq "10:00" 30)).start_time.data <
      (newAppointment utcEngine sampleDb (sampleReq "10:00" 30)).end_time.data ∧
    isoTime (newAppointment utcEngine sampleDb (sampleReq "10:00" 30)).end_time =
      some (600 + 30) :=
  ⟨by decide, by decide,
   (persisted_row_wellformed utcEngine sampleDb noFaults (sampleReq "10:00" 30) 0 19844 600
      ⟨fun _ _ => rfl, by decide, by decide⟩ (by decide) (by decide) (by decide)
      (by decide)).2.1,
   (persisted_row_wellformed utcEngine sampleDb noFaults (sampleReq "10:00" 30) 0 19844 600
      ⟨fun _ _ => rfl, by decide, by decide⟩ (by decide) (by decide) (by decide)
      (by decide)).2.2.2.1⟩

/-- C8 fails as stated: with an empty `Appointments` table, a failing availability query is
answered 400 "Time slot not available". -/
theorem query_failure_reported_unavailable :
    sampleDb.appointments = [] ∧
    bookAppointment utcEngine sampleDb { noFaults with availability := true } (sampleReq "10:00" 30) =
      ⟨some ⟨400, "Time slot not available"⟩, sampleDb,
        [.selectStudent, .selectMentor, .selectOverlap]⟩ := by
  decide

/-- C8, amended: when the availability query is issued and fails, the handler answers 400
"Time slot not available" and writes nothing; and "Time slot not available" is sent only when
the availability query failed or some stored appointment of that mentor and date matches the
condition of the query. -/
theorem slotUnavailable_cause (eng : Engine) (db : Db) (f : Faults) (req : Request) :
    (DbCall.selectOverlap ∈ (bookAppointment eng db f req).calls → f.availability = true →
      bookAppointment eng db f req =
        ⟨some slotUnavailable, db, [.selectStudent, .selectMentor, .selectOverlap]⟩) ∧
    ((bookAppointment eng db f req).response = some slotUnavailable →
      f.availability = true ∨
      ∃ a ∈ db.appointments, a.mentor_id = req.mentor_id ∧ a.date = req.date ∧
        overlapWhere a req.mentor_id req.date (formattedStartTime eng req) (formattedEndTime eng req) =
          true) := by
  constructor
  · intro hcall hf
    obtain ⟨s, m, hs, hm, he⟩ := bookAppointment_selectOverlap eng db f req hcall
    unfold bookAppointment
    simp only [hs, hm, he, hf, checkAvailability_fails, Bool.false_eq_true, if_false]
  · intro hr
    cases hf : f.availability with
    | true => exact Or.inl rfl
    | false =>
      right
      have hav : checkAvailability db f.availability req.mentor_id req.date
          (formattedStartTime eng req) (formattedEndTime eng req) = false := by
        by_contra hne
        rw [Bool.not_eq_false] at hne
        exact slotUnavailable_requires_busy eng db f req hne hr
      rw [hf] at hav
      obtain ⟨a, ha, h⟩ := (checkAvailability_eq_false_iff db _ _ _ _).mp hav
      have h2 := (overlapWhere_eq_true_iff a _ _ _ _).mp h
      exact ⟨a, ha, h2.1, h2.2.1, h⟩

/-- C8, amended, on two requests: with a failing availability query the answer is 400 "Time
slot not available" and nothing is written; without failures the same answer to the request
for 09:15 on the booked morning comes with a stored row that matches the query. -/
theorem slotUnavailable_cause_witness :
    bookAppointment utcEngine morningDb { noFaults with availability := true } (sampleReq "11:00" 30) =
      ⟨some ⟨400, "Time slot not available"⟩, morningDb,
        [.selectStudent, .selectMentor, .selectOverlap]⟩ ∧
    ∃ a ∈ morningDb.appointments, a.mentor_id = 1 ∧ a.date = "2024-05-01" ∧
      overlapWhere a 1 "2024-05-01" "09:15" "09:45" = true :=
  ⟨(slotUnavailable_cause utcEngine morningDb { noFaults with availability := true }
      (sampleReq "11:00" 30)).1 (by decide) rfl,
   ((slotUnavailable_cause utcEngine morningDb noFaults (sampleReq "09:15" 30)).2 (by decide)).resolve_left
      (by decide)⟩

/-- C9 fails as stated: when the availability checks of the requests for 10:00 and for 10:15
(same mentor, same date, 30 minutes each) both run before either insert, both requests are
answered 200 and the table holds the overlapping rows `[10:00,10:30)` and `[10:15,10:45)`. -/
theorem interleaved_requests_both_commit :
    (runPair utcEngine (fun _ => noFaults) twoRequests (startPair sampleDb)
      [true, true, true, false, false, false, true, true, false, false]).phase true =
        .done (some booked) ∧
    (runPair utcEngine (fun _ => noFaults) twoRequests (startPair sampleDb)
      [true, true, true, false, false, false, true, true, false, false]).phase false =
        .done (some booked) ∧
    (runPair utcEngine (fun _ => noFaults) twoRequests (startPair sampleDb)
      [true, true, true, false, false, false, true, true, false, false]).db.appointments =
        [⟨1, 1, 1, "2024-05-01", "10:00", "10:30", 30⟩,
         ⟨2, 1, 1, "2024-05-01", "10:15", "10:45", 30⟩] ∧
    ¬ NoDoubleBooking (runPair utcEngine (fun _ => noFaults) twoRequests (startPair sampleDb)
      [true, true, true, false, false, false, true, true, false, false]).db := by
  refine ⟨by decide, by decide, by decide, ?_⟩
  unfold NoDoubleBooking
  decide

/-- C9, amended: let the database calls of two booking requests for the same mentor and date
with overlapping windows be executed in any order `sched`.  If the next call of one request
is its availability check and the other request has already inserted its appointment, the
check leaves the database unchanged and the request is answered "Time slot not available",
whatever is executed afterwards. -/
theorem check_after_insert_rejected (eng : Engine) (f : Bool → Faults) (req : Bool → Request)
    (db : Db) (sched : List Bool) (who : Bool)
    (hm : (req who).mentor_id = (req (!who)).mentor_id)
    (hd : (req who).date = (req (!who)).date)
    (hov : overlaps (formattedStartTime eng (req (!who))) (formattedEndTime eng (req (!who)))
      (formattedStartTime eng (req who)) (formattedEndTime eng (req who)))
    (hcheck : (runPair eng f req (startPair db) sched).phase who = .atCheck)
    (hins : ((runPair eng f req (startPair db) sched).phase (!who)).inserted = true) :
    (runPair eng f req (startPair db) (sched ++ [who])).db =
      (runPair eng f req (startPair db) sched).db ∧
    ∀ more, (runPair eng f req (startPair db) (sched ++ who :: more)).phase who =
      .done (some slotUnavailable) := by
  have hrows : RowsPresent eng req (runPair eng f req (startPair db) sched) :=
    runPair_rowsPresent eng f req (startPair db) sched
      (fun w hw => absurd hw (by simp [startPair, Phase.inserted]))
  obtain ⟨a, ha, ham, had, has, hae⟩ := hrows (!who) hins
  have hav : checkAvailability (runPair eng f req (startPair db) sched).db (f who).availability
      (req who).mentor_id (req who).date (formattedStartTime eng (req who))
      (formattedEndTime eng (req who)) = false := by
    cases (f who).availability with
    | true => exact checkAvailability_fails _ _ _ _ _
    | false =>
      rw [checkAvailability_eq_false_iff]
      refine ⟨a, ha, ?_⟩
      rw [hm, hd, ← ham, ← had]
      apply overlapWhere_of_overlaps
      rw [has, hae]
      exact hov
  have hstep : stepPair eng f req (runPair eng f req (startPair db) sched) who =
      ⟨(runPair eng f req (startPair db) sched).db,
       fun w => if w = who then .done (some slotUnavailable)
                else (runPair eng f req (startPair db) sched).phase w⟩ := by
    simp only [stepPair, hcheck, advance, hav, Bool.false_eq_true, if_false]
  constructor
  · rw [runPair_snoc, hstep]
  · intro more
    have e : sched ++ who :: more = (sched ++ [who]) ++ more := by simp
    rw [e, runPair_append]
    apply runPair_done
    rw [runPair_snoc, hstep]
    simp

/-- C9, amended, when the request for 10:00 has run to completion and the request for 10:15
reaches its availability check: it is answered "Time slot not available" and only the row
`[10:00,10:30)` is stored. -/
theorem check_after_insert_rejected_witness :
    (runPair utcEngine (fun _ => noFaults) twoRequests (startPair sampleDb)
      ([true, true, true, true, true, false, false] ++ false :: [false, false])).phase false =
        .done (some slotUnavailable) ∧
    (runPair utcEngine (fun _ => noFaults) twoRequests (startPair sampleDb)
      ([true, true, true, true, true, false, false] ++ [false])).db.appointments =
        [⟨1, 1, 1, "2024-05-01", "10:00", "10:30", 30⟩] := by
  have h := check_after_insert_rejected utcEngine (fun _ => noFaults) twoRequests sampleDb
    [true, true, true, true, true, false, false] false (by decide) (by decide) (by decide)
    (by decide) (by decide)
  refine ⟨h.2 [false, false], ?_⟩
  rw [h.1]
  decide

end Appointments
